import Mathlib

/-!
Verification development for the jamie conversational-robot brain.

This file gives a shallow embedding of the core subsystems of the
repository and proves properties of them:

* `FileProtector` (src/brain/src/protectors/file_protector.py):
  password-based authenticated encryption of byte buffers laid out as
  `salt(16) || nonce(12) || ciphertext || tag(16)`.
* `Memory` (src/brain/src/ai/mind/memory.py): trim/format/save/load of
  encrypted conversation-memory fragments.
* `CognitionProcessor` (src/brain/src/ai/processor/cognition_processor.py):
  the plan parser for `var = [call(k=v, ...), ...]` text and the
  capability binder.
* `HiveMind` (src/brain/src/ai/mind/hive_mind.py): the two-round
  deliberation protocol's result selection.

Bytes are modelled as lists of naturals.  External cryptographic
primitives (AES-GCM and PBKDF2, from the `cryptography` package) are not
code of this repository; they are modelled abstractly by a structure
`AEAD` carrying the encryption, decryption and tag functions together
with the functional-correctness contract the library guarantees
(ciphertext length equals plaintext length; decryption inverts
encryption under the same key and nonce), and by an arbitrary
deterministic key-derivation function passed as a parameter.  Calls to
`os.urandom` are modelled by passing the generated salt and nonce as
explicit arguments.
-/

/-- Byte strings: each entry is one byte value. -/
abbrev Bytes := List Nat

/-- Abstract model of the AEAD cipher (AES-GCM) supplied by the external
`cryptography` library: an encryption function, a decryption function and
a tag (MAC) function over (key, nonce, data), together with the
correctness contract of the library. -/
structure AEAD where
  encFn : Bytes → Bytes → Bytes → Bytes
  decFn : Bytes → Bytes → Bytes → Bytes
  tagFn : Bytes → Bytes → Bytes → Bytes
  encFn_length : ∀ k n p, (encFn k n p).length = p.length
  decFn_encFn : ∀ k n p, decFn k n (encFn k n p) = p
  tagFn_length : ∀ k n c, (tagFn k n c).length = 16

/-- `GEMINI.KDF_SALT_SIZE` from src/brain/src/ai/clients/constants.py. -/
def KDF_SALT_SIZE : Nat := 16

/-- `GEMINI.IV_NONCE_SIZE` from src/brain/src/ai/clients/constants.py. -/
def IV_NONCE_SIZE : Nat := 12

/-- GCM tag size, hardcoded as 16 in `FileProtector.decrypt`. -/
def GCM_TAG_SIZE : Nat := 16

namespace FileProtector

/-- `FileProtector.encrypt` (file_protector.py, lines 85-125).
The freshly generated random `salt` and `nonce` are explicit arguments.
Returns `none` when the password is empty (the Python method would raise
`ValueError` in that state); otherwise returns
`salt || nonce || ciphertext || tag`. -/
def encrypt (A : AEAD) (kdf : Bytes → Bytes → Bytes) (password : Bytes)
    (salt nonce plaintext : Bytes) : Option Bytes :=
  if password = [] then none
  else
    let key := kdf password salt
    let ciphertext := A.encFn key nonce plaintext
    let tag := A.tagFn key nonce ciphertext
    some (salt ++ nonce ++ ciphertext ++ tag)

/-- `FileProtector.decrypt` (file_protector.py, lines 127-185).
Expects `salt || nonce || ciphertext || tag`; returns `none` whenever the
password is unset, the blob is shorter than the 45-byte minimum, or the
recomputed authentication tag does not match the stored tag (the Python
code's `InvalidTag`/generic-exception paths).  The function is total: no
exception escapes to the caller. -/
def decrypt (A : AEAD) (kdf : Bytes → Bytes → Bytes) (password : Bytes)
    (encryptedData : Bytes) : Option Bytes :=
  if password = [] then none
  else if encryptedData.length < KDF_SALT_SIZE + IV_NONCE_SIZE + GCM_TAG_SIZE + 1 then
    none
  else
    let salt := encryptedData.take KDF_SALT_SIZE
    let nonce := (encryptedData.drop KDF_SALT_SIZE).take IV_NONCE_SIZE
    let tagStartIndex := encryptedData.length - GCM_TAG_SIZE
    let ciphertext :=
      (encryptedData.drop (KDF_SALT_SIZE + IV_NONCE_SIZE)).take
        (tagStartIndex - (KDF_SALT_SIZE + IV_NONCE_SIZE))
    let tag := encryptedData.drop tagStartIndex
    let key := kdf password salt
    if A.tagFn key nonce ciphertext = tag then some (A.decFn key nonce ciphertext)
    else none

end FileProtector

/-- A concrete instance of the abstract cipher contract, used to evaluate
the development on closed inputs: encryption and decryption are the
identity and the tag is a constant 16-byte block. -/
def idAEAD : AEAD where
  encFn := fun _ _ p => p
  decFn := fun _ _ c => c
  tagFn := fun _ _ _ => List.replicate 16 0
  encFn_length := fun _ _ _ => rfl
  decFn_encFn := fun _ _ _ => rfl
  tagFn_length := fun _ _ _ => by simp

/-- A concrete key-derivation function for closed evaluations: a constant
32-byte key, the size dictated by `GEMINI.AES_KEY_SIZE`. -/
def constKdf : Bytes → Bytes → Bytes := fun _ _ => List.replicate 32 0

/-! ## Memory (src/brain/src/ai/mind/memory.py) -/

/-- Python `str.strip()` whitespace set (space, tab, newline, carriage
return, vertical tab, form feed), on character lists. -/
def pyIsSpace (c : Char) : Bool :=
  c = ' ' ∨ c = '\t' ∨ c = '\n' ∨ c = '\r' ∨ c = '\x0b' ∨ c = '\x0c'

/-- Python `str.strip()` on a character list. -/
def pyStripL (l : List Char) : List Char :=
  ((l.dropWhile pyIsSpace).reverse.dropWhile pyIsSpace).reverse

/-- Python `str.strip()`. -/
def pyStrip (s : String) : String :=
  String.mk (pyStripL s.data)

/-- Model of the external UTF-8 text codec (`str.encode('utf-8')` /
`bytes.decode('utf-8')`): an injective encoding into bytes with a partial
inverse; decoding is `none` on byte strings that are not valid encodings
(Python raises `UnicodeDecodeError` there, which the callers in
memory.py catch and treat as a skipped/failed fragment). -/
structure TextCodec where
  enc : String → Bytes
  dec : Bytes → Option String
  dec_enc : ∀ s, dec (enc s) = some s
  enc_ne : ∀ s, s ≠ "" → enc s ≠ []

/-- A concrete codec used to evaluate the development on closed inputs:
characters are encoded as their code points. -/
def charCodec : TextCodec where
  enc s := s.data.map Char.toNat
  dec l := some (String.mk (l.map Char.ofNat))
  dec_enc s := by
    cases s with
    | mk d => simp [Function.comp_def, Char.ofNat_toNat]
  enc_ne s hs := by
    cases s with
    | mk d =>
      cases d with
      | nil => exact absurd rfl hs
      | cons c cs => simp

/-- One text part of a conversation turn (`{'text': string}`). -/
structure TurnPart where
  text : String

/-- One conversation turn (`{'role': ..., 'parts': [...]}`), as produced
by `Memory.get_memories`. -/
structure Turn where
  role : String
  parts : List TurnPart

/-- `MEMORY.SESSION_FRAGMENT_HEADER` from constants.py. -/
def SESSION_FRAGMENT_HEADER : String := "--- Previous Conversation History ---"

/-- `MEMORY.FRAGMENT_SEPARATOR` from constants.py. -/
def FRAGMENT_SEPARATOR : String := "\n--- END FRAGMENT ---\n"

/-- `MEMORY.FRAGMENT_THRESHOLD` from constants.py (in MB). -/
def FRAGMENT_THRESHOLD : Nat := 100

/-- `threshold_bytes = MEMORY.FRAGMENT_THRESHOLD * 1024 * 1024`
(memory.py, line 326). -/
def thresholdBytes : Nat := FRAGMENT_THRESHOLD * 1024 * 1024

/-- `MEMORY.TURN_MARKER.format(role=...)`. -/
def turnMarker (role : String) : String := "[" ++ role ++ "]: "

/-- Python `str.capitalize()`: first character upper-cased, the rest
lower-cased. -/
def pyCapitalize (s : String) : String :=
  match s.data with
  | [] => ""
  | c :: rest => String.mk (c.toUpper :: rest.map Char.toLower)

/-- Python `str.upper()`. -/
def pyUpper (s : String) : String := String.mk (s.data.map Char.toUpper)

/-- `Memory._format_session_turns_as_fragment` (memory.py, lines
218-271).  The external `textwrap.fill(·, width=80, ...)` call is
modelled by the function parameter `fill`.  Turns whose joined text
strips to empty are skipped; if no turn contributed text the result is
the empty string. -/
def formatSessionTurnsAsFragment (fill : String → String) (turns : List Turn) : String :=
  if turns.isEmpty then ""
  else
    let body := turns.foldl (fun acc turn =>
      let fullText := pyStrip (String.join (turn.parts.map TurnPart.text))
      if fullText = "" then acc
      else
        let displayRole :=
          if turn.role = "user" ∨ turn.role = "model" then pyCapitalize turn.role
          else turn.role
        acc ++ turnMarker displayRole ++ pyStrip (fill fullText) ++ "\n\n")
      (SESSION_FRAGMENT_HEADER ++ "\n\n")
    if body = SESSION_FRAGMENT_HEADER ++ "\n\n" then "" else pyStrip body

/-- The trim policy of `Memory._save_current_memory_as_fragment`
(memory.py, lines 290-308): `none` keeps every turn, `some 0` keeps
none, `some n` with `n > 0` keeps the last `n * 2` entries when the list
is longer than that, except that a list of exactly one entry is kept
as-is. -/
def trimSessionTurns (maxTurns : Option Nat) (turns : List Turn) : List Turn :=
  match maxTurns with
  | Option.none => turns
  | Option.some n =>
    if n = 0 then []
    else
      let maxEntries := n * 2
      if 0 < turns.length ∧ turns.length < 2 then turns
      else if maxEntries < turns.length then turns.drop (turns.length - maxEntries)
      else turns

/-- The three-valued `max_session_turns_to_save` constructor input
(memory.py accepts `None`, an integer, or a string). -/
inductive MaxTurnsInput where
  | nothing
  | int (n : Int)
  | str (s : String)

/-- Python `int(s)` on a decimal string: optional surrounding
whitespace, optional sign, one or more digits. -/
def pyParseInt (s : String) : Option Int :=
  let digitsVal : List Char → Option Nat := fun l =>
    if l ≠ [] ∧ l.all Char.isDigit then
      some (l.foldl (fun a c => a * 10 + (c.toNat - 48)) 0)
    else none
  match pyStripL s.data with
  | '+' :: ds => (digitsVal ds).map Int.ofNat
  | '-' :: ds => (digitsVal ds).map (fun n => -(n : Int))
  | ds => (digitsVal ds).map Int.ofNat

/-- The `max_session_turns_to_save` input validation of
`Memory.__init__` (memory.py, lines 104-133): `None` and the string
`"ALL"` (case-insensitively) map to `none` (save all turns); a
non-negative integer or integer string maps to itself; anything else is
a `ValueError`. -/
def processMaxSessionTurns : MaxTurnsInput → Except String (Option Nat)
  | MaxTurnsInput.nothing => Except.ok Option.none
  | MaxTurnsInput.int n =>
    if n < 0 then
      Except.error "max_session_turns_to_save integer value must be non-negative"
    else Except.ok (Option.some n.toNat)
  | MaxTurnsInput.str s =>
    if pyUpper s = "ALL" then Except.ok Option.none
    else
      match pyParseInt s with
      | Option.some n =>
        if n < 0 then Except.error "Invalid string value for max_session_turns_to_save"
        else Except.ok (Option.some n.toNat)
      | Option.none => Except.error "Invalid string value for max_session_turns_to_save"

/-- The directory of indexed fragment files, as the association of each
file's numeric index to its encrypted on-disk bytes (the files matched
by the save path's `{prefix}_(\d+){extension}` pattern). -/
abbrev FragmentDir := List (Nat × Bytes)

/-- `max(indices_and_paths, key=lambda item: item[0])` (memory.py, line
348): the first entry attaining the highest index, or `none` when the
directory holds no indexed fragment. -/
def maxFragment (dir : FragmentDir) : Option (Nat × Bytes) :=
  dir.foldl (fun acc x =>
    match acc with
    | Option.none => Option.some x
    | Option.some y => if y.1 < x.1 then Option.some x else Option.some y)
    Option.none

/-- Overwriting the fragment file at index `i` in place
(`open(last_fragment_path, 'wb')`, memory.py line 388). -/
def overwriteFragment (dir : FragmentDir) (i : Nat) (data : Bytes) : FragmentDir :=
  dir.map (fun x => if x.1 = i then (i, data) else x)

/-- `Memory._save_current_memory_as_fragment` (memory.py, lines
274-456), as a transformer of the fragment directory.  The fresh salt
and nonce of the single `FileProtector.encrypt` call are explicit
arguments.  Faithful control flow:

* empty-after-strip formatted text: return with the directory unchanged
  (lines 317-321 - no file is deleted and nothing is written);
* no indexed fragment: write a new fragment at index 0;
* highest-indexed fragment of size `≤ threshold_bytes`: decrypt it,
  append `FRAGMENT_SEPARATOR` and the new text, re-encrypt, overwrite in
  place; every failure on this path (decryption returning `None` - the
  subsequent `.decode` raises - decode failure, the encrypt call
  raising, or empty re-encrypted data) is caught at lines 393-397 and
  leaves the directory unchanged, with no fallback to a new file (the
  re-check at line 415 then still sees size `≤ threshold`);
* highest-indexed fragment of size `> threshold_bytes`: write a new
  fragment at the old maximum index plus 1 (lines 400-403 and 415-447).

(After a successful in-place append whose new size exceeds the
threshold, line 415's re-check enters the new-fragment block with
`next_index` unbound, raising `UnboundLocalError`, which the outer
handler at line 453 swallows - the directory state is the overwritten
file either way.) -/
def saveFormattedFragment (A : AEAD) (kdf : Bytes → Bytes → Bytes)
    (password : Bytes) (C : TextCodec) (salt nonce : Bytes)
    (text : String) (dir : FragmentDir) : FragmentDir :=
  if pyStrip text = "" then dir
  else
    match maxFragment dir with
    | Option.some (maxIndex, content) =>
      if content.length ≤ thresholdBytes then
        match (FileProtector.decrypt A kdf password content).bind C.dec with
        | Option.none => dir
        | Option.some existingText =>
          let combined := existingText ++ FRAGMENT_SEPARATOR ++ text
          match FileProtector.encrypt A kdf password salt nonce (C.enc combined) with
          | Option.none => dir
          | Option.some e => if e = [] then dir else overwriteFragment dir maxIndex e
      else
        match FileProtector.encrypt A kdf password salt nonce (C.enc text) with
        | Option.none => dir
        | Option.some e => if e = [] then dir else dir ++ [(maxIndex + 1, e)]
    | Option.none =>
      match FileProtector.encrypt A kdf password salt nonce (C.enc text) with
      | Option.none => dir
      | Option.some e => if e = [] then dir else dir ++ [(0, e)]

/-- `Memory._save_current_memory_as_fragment` end to end: trim the
session turns, format them, then run the fragment-directory update on
the formatted text. -/
def saveCurrentSessionAsFragment (A : AEAD) (kdf : Bytes → Bytes → Bytes)
    (password : Bytes) (C : TextCodec) (fill : String → String)
    (maxTurns : Option Nat) (turns : List Turn)
    (salt nonce : Bytes) (dir : FragmentDir) : FragmentDir :=
  saveFormattedFragment A kdf password C salt nonce
    (formatSessionTurnsAsFragment fill (trimSessionTurns maxTurns turns)) dir

/-- The filename sort key of `Memory._load_memory_fragments`
(`get_index_from_filename`, memory.py lines 492-502): the numeric index
for filenames of the exact shape `{prefix}_{digits}{extension}`, and
`-1` for every other filename (non-matching or unparsable). -/
def getIndexKey (pfxChars extChars fname : List Char) : Int :=
  let pre := pfxChars ++ ['_']
  if pre.isPrefixOf fname then
    let rest := fname.drop pre.length
    if extChars.isSuffixOf rest then
      let mid := rest.take (rest.length - extChars.length)
      if mid ≠ [] ∧ mid.all Char.isDigit then
        Int.ofNat (mid.foldl (fun a c => a * 10 + (c.toNat - 48)) 0)
      else -1
    else -1
  else -1

/-- Stable insertion into a key-sorted list: the inserted element
precedes the list elements in the original order, so it is placed before
the first element whose key is greater than or equal to its own. -/
def stableInsertByKey {α : Type} (key : α → Int) (x : α) : List α → List α
  | [] => [x]
  | y :: ys => if key x ≤ key y then x :: y :: ys else y :: stableInsertByKey key x ys

/-- Python `list.sort(key=...)`: a stable ascending sort by key. -/
def sortByKey {α : Type} (key : α → Int) : List α → List α
  | [] => []
  | x :: xs => stableInsertByKey key x (sortByKey key xs)

/-- `Memory._load_memory_fragments` (memory.py, lines 459-537) over the
glob result `files` (filename, on-disk bytes) listed in filesystem
order: sort by the embedded numeric index (unparsable names keyed `-1`),
then decrypt each file, skipping empty files, fragments that fail to
decrypt or decode, and fragments that strip to the empty string. -/
def loadMemoryFragments (A : AEAD) (kdf : Bytes → Bytes → Bytes)
    (password : Bytes) (C : TextCodec) (filePfx ext : String)
    (files : List (String × Bytes)) : List String :=
  let sorted := sortByKey (fun f => getIndexKey filePfx.data ext.data f.1.data) files
  sorted.filterMap (fun f =>
    if f.2 = [] then Option.none
    else
      match (FileProtector.decrypt A kdf password f.2).bind C.dec with
      | Option.none => Option.none
      | Option.some s => if pyStrip s = "" then Option.none else Option.some s)

/-- A concrete conversation turn used in closed evaluations. -/
def demoTurn : Turn := { role := "user", parts := [{ text := "hi" }] }

/-- A concrete encrypted fragment blob for closed evaluations under
`idAEAD`/`constKdf`: all-zero salt, nonce and tag around the encoded
text. -/
def demoBlob (s : String) : Bytes :=
  List.replicate 16 0 ++ List.replicate 12 0 ++ charCodec.enc s ++ List.replicate 16 0

/-- A concrete five-turn session used in closed evaluations of the trim
policy. -/
def fiveTurns : List Turn :=
  [ { role := "user", parts := [{ text := "a" }] },
    { role := "model", parts := [{ text := "b" }] },
    { role := "user", parts := [{ text := "c" }] },
    { role := "model", parts := [{ text := "d" }] },
    { role := "user", parts := [{ text := "e" }] } ]

/-! ## CognitionProcessor
(src/brain/src/ai/processor/cognition_processor.py) -/

/-- The regex character class `[a-zA-Z_]`. -/
def isIdentStart (c : Char) : Bool :=
  ('a' ≤ c ∧ c ≤ 'z') ∨ ('A' ≤ c ∧ c ≤ 'Z') ∨ c = '_'

/-- The regex character class `[a-zA-Z0-9_]`. -/
def isIdentCont (c : Char) : Bool :=
  isIdentStart c ∨ ('0' ≤ c ∧ c ≤ '9')

/-- Matching the leading regex group `([a-zA-Z_][a-zA-Z0-9_]*)` at the
start of a character list: returns the matched identifier and the
remainder, or `none` when the first character does not qualify. -/
def takeIdent : List Char → Option (List Char × List Char)
  | [] => Option.none
  | c :: rest =>
    if isIdentStart c then
      Option.some (c :: rest.takeWhile isIdentCont, rest.dropWhile isIdentCont)
    else Option.none

/-- The values produced by the argument parser: Python literals as
evaluated by `ast.literal_eval`, restricted to the literal forms the
plan grammar exercises (strings, decimal integers and floats, booleans,
`None`, lists, dicts).  A float literal is kept exactly as the scaled
decimal `mantissa * 10 ^ exp10`. -/
inductive PyValue where
  | str (s : String)
  | int (n : Int)
  | float (mantissa : Int) (exp10 : Int)
  | bool (b : Bool)
  | pynone
  | list (xs : List PyValue)
  | dict (entries : List (PyValue × PyValue))

/-- One parsed call: `{'name': str, 'args': {str: Any}}`. -/
structure CallSpec where
  name : String
  args : List (String × PyValue)

/-- The result of `CognitionProcessor.parse_function`:
`{'variable_name': str, 'functions': [...]}`. -/
structure ParsedPlan where
  variable_name : String
  functions : List CallSpec

/-- Python dict assignment `args[key] = value`: replace in place when
the key exists (keeping its original position), else append. -/
def dictInsert (m : List (String × PyValue)) (k : String) (v : PyValue) :
    List (String × PyValue) :=
  if m.any (fun p => p.1 = k) then
    m.map (fun p => if p.1 = k then (k, v) else p)
  else m ++ [(k, v)]

/-- Skip Python whitespace (`\s*`). -/
def skipWs (l : List Char) : List Char := l.dropWhile pyIsSpace

/-- Digits-to-value for a run of decimal digits. -/
def natVal (l : List Char) : Nat :=
  l.foldl (fun a c => a * 10 + (c.toNat - 48)) 0

/-- Body of a Python string literal up to the closing quote `q`, with
the common backslash escapes (`\n`, `\t`, `\r`, `\\`, `\'`, `\"`);
unknown escapes are kept verbatim, as Python does.  Returns the decoded
body and the remainder after the closing quote; `none` when the literal
is unterminated. -/
def parseStrBody (q : Char) (fuel : Nat) : List Char → Option (List Char × List Char) :=
  match fuel with
  | 0 => fun _ => Option.none
  | Nat.succ fuel => fun l =>
    match l with
    | [] => Option.none
    | c :: rest =>
      if c = q then Option.some ([], rest)
      else if c = '\\' then
        match rest with
        | [] => Option.none
        | e :: rest2 =>
          let esc : Option Char :=
            if e = 'n' then Option.some '\n'
            else if e = 't' then Option.some '\t'
            else if e = 'r' then Option.some '\r'
            else if e = '\\' then Option.some '\\'
            else if e = '\'' then Option.some '\''
            else if e = '"' then Option.some '"'
            else Option.none
          match esc with
          | Option.some d =>
            (parseStrBody q fuel rest2).map (fun pr => (d :: pr.1, pr.2))
          | Option.none =>
            (parseStrBody q fuel rest2).map (fun pr => (c :: e :: pr.1, pr.2))
      else (parseStrBody q fuel rest).map (fun pr => (c :: pr.1, pr.2))

/-- Exponent digits of a float literal (after `e`/`E`): optional sign
and one or more digits. -/
def parseExpDigits (r : List Char) : Option (Int × List Char) :=
  let sr : Int × List Char :=
    match r with
    | '+' :: t => (1, t)
    | '-' :: t => (-1, t)
    | _ => (1, r)
  let ds := sr.2.takeWhile Char.isDigit
  if ds = [] then Option.none
  else Option.some (sr.1 * Int.ofNat (natVal ds), sr.2.dropWhile Char.isDigit)

/-- A Python number literal with optional adjacent sign: decimal
integers, and floats of the forms `d.d?`, `.d`, with an optional
`e`/`E` exponent. -/
def parseNumber (l : List Char) : Option (PyValue × List Char) :=
  let sl : Int × List Char :=
    match l with
    | '+' :: r => (1, r)
    | '-' :: r => (-1, r)
    | _ => (1, l)
  let sgn := sl.1
  let ip := sl.2.takeWhile Char.isDigit
  let l2 := sl.2.dropWhile Char.isDigit
  match l2 with
  | '.' :: r =>
    let fp := r.takeWhile Char.isDigit
    let l3 := r.dropWhile Char.isDigit
    if ip = [] ∧ fp = [] then Option.none
    else
      let fexp : Option (Int × List Char) :=
        match l3 with
        | 'e' :: r3 => parseExpDigits r3
        | 'E' :: r3 => parseExpDigits r3
        | _ => Option.some (0, l3)
      match fexp with
      | Option.some (ex, r2) =>
        Option.some
          (PyValue.float (sgn * Int.ofNat (natVal (ip ++ fp))) (ex - Int.ofNat fp.length), r2)
      | Option.none => Option.none
  | 'e' :: r =>
    if ip = [] then Option.none
    else
      (parseExpDigits r).map (fun pr => (PyValue.float (sgn * Int.ofNat (natVal ip)) pr.1, pr.2))
  | 'E' :: r =>
    if ip = [] then Option.none
    else
      (parseExpDigits r).map (fun pr => (PyValue.float (sgn * Int.ofNat (natVal ip)) pr.1, pr.2))
  | _ =>
    if ip = [] then Option.none
    else Option.some (PyValue.int (sgn * Int.ofNat (natVal ip)), l2)

mutual

/-- Model of `ast.literal_eval`'s expression parser over the supported
literal forms: parse one literal, returning the value and the remaining
input.  `fuel` bounds the recursion (callers pass the input length). -/
def parseLit : Nat → List Char → Option (PyValue × List Char)
  | 0, _ => Option.none
  | Nat.succ fuel, l =>
    match skipWs l with
    | [] => Option.none
    | c :: rest =>
      if c = '\'' ∨ c = '"' then
        match parseStrBody c (rest.length + 1) rest with
        | Option.some (body, r) => Option.some (PyValue.str (String.mk body), r)
        | Option.none => Option.none
      else if c = '[' then
        match parseLitSeq fuel rest with
        | Option.some (xs, r) => Option.some (PyValue.list xs, r)
        | Option.none => Option.none
      else if c = '\x7b' then
        match parseLitDict fuel rest with
        | Option.some (es, r) => Option.some (PyValue.dict es, r)
        | Option.none => Option.none
      else if c.isDigit ∨ c = '.' ∨ c = '+' ∨ c = '-' then parseNumber (c :: rest)
      else
        match takeIdent (c :: rest) with
        | Option.some (name, r) =>
          if name = ['T', 'r', 'u', 'e'] then Option.some (PyValue.bool true, r)
          else if name = ['F', 'a', 'l', 's', 'e'] then Option.some (PyValue.bool false, r)
          else if name = ['N', 'o', 'n', 'e'] then Option.some (PyValue.pynone, r)
          else Option.none
        | Option.none => Option.none

/-- Elements of a list literal up to the closing `]`, allowing a
trailing comma. -/
def parseLitSeq : Nat → List Char → Option (List PyValue × List Char)
  | 0, _ => Option.none
  | Nat.succ fuel, l =>
    match skipWs l with
    | [] => Option.none
    | c :: rest =>
      if c = ']' then Option.some ([], rest)
      else
        match parseLit fuel (c :: rest) with
        | Option.some (v, r) =>
          match skipWs r with
          | ',' :: r2 =>
            match parseLitSeq fuel r2 with
            | Option.some (xs, r3) => Option.some (v :: xs, r3)
            | Option.none => Option.none
          | ']' :: r2 => Option.some ([v], r2)
          | _ => Option.none
        | Option.none => Option.none

/-- Entries of a dict literal up to the closing brace, allowing a
trailing comma. -/
def parseLitDict : Nat → List Char → Option (List (PyValue × PyValue) × List Char)
  | 0, _ => Option.none
  | Nat.succ fuel, l =>
    match skipWs l with
    | [] => Option.none
    | c :: rest =>
      if c = '\x7d' then Option.some ([], rest)
      else
        match parseLit fuel (c :: rest) with
        | Option.some (k, r) =>
          match skipWs r with
          | ':' :: r2 =>
            match parseLit fuel r2 with
            | Option.some (v, r3) =>
              match skipWs r3 with
              | ',' :: r4 =>
                match parseLitDict fuel r4 with
                | Option.some (es, r5) => Option.some ((k, v) :: es, r5)
                | Option.none => Option.none
              | '\x7d' :: r4 => Option.some ([(k, v)], r4)
              | _ => Option.none
            | Option.none => Option.none
          | _ => Option.none
        | Option.none => Option.none

end

/-- Model of `ast.literal_eval(value_str)` (cognition_processor.py, line
124): the whole string, up to surrounding whitespace, must parse as one
literal; any leftover input is a `SyntaxError`, i.e. `none`.  Tuples,
sets, complex numbers and a few other exotic literal forms accepted by
the real `ast.literal_eval` are outside the plan grammar and are not
modelled; on them this model fails over to the plain-string fallback. -/
def pyLiteralEval (s : List Char) : Option PyValue :=
  match parseLit (s.length + 1) s with
  | Option.some (v, rest) => if skipWs rest = [] then Option.some v else Option.none
  | Option.none => Option.none

/-- The value branch of the argument parser (cognition_processor.py,
lines 121-133): try `ast.literal_eval`; on failure strip one layer of
matching outer quotes if present, else keep the raw text as a string. -/
def parseArgValue (valueStr : List Char) : PyValue :=
  match pyLiteralEval valueStr with
  | Option.some v => v
  | Option.none =>
    match valueStr with
    | [] => PyValue.str (String.mk [])
    | c :: _ =>
      if (c = '"' ∧ valueStr.getLast? = Option.some '"')
          ∨ (c = '\'' ∧ valueStr.getLast? = Option.some '\'') then
        PyValue.str (String.mk (valueStr.drop 1).dropLast)
      else PyValue.str (String.mk valueStr)

/-- One `key=value` pair (cognition_processor.py, lines 112-135): the
anchored regex `([a-zA-Z_][a-zA-Z0-9_]*)\s*=(.*)` against the stripped
pair text, then the literal-or-fallback value parse. -/
def parseArgPair (funcCallStr piece : List Char) : Except String (String × PyValue) :=
  match takeIdent piece with
  | Option.none =>
    Except.error ("Invalid argument format in '" ++ String.mk funcCallStr ++ "': '"
      ++ String.mk piece ++ "'")
  | Option.some (key, r1) =>
    match skipWs r1 with
    | '=' :: rest => Except.ok (String.mk key, parseArgValue (pyStripL rest))
    | _ =>
      Except.error ("Invalid argument format in '" ++ String.mk funcCallStr ++ "': '"
        ++ String.mk piece ++ "'")

/-- The top-level call splitter of `parse_function` (cognition_processor.py,
lines 45-75): scan character by character, tracking the three bracket
depths and the quote state (a quote preceded by a raw backslash does not
toggle), cutting at commas where all three depths are zero.  Returns the
raw (un-stripped) segments in order; the segment in progress is flushed
at end of input. -/
def splitTopLevelAux : List Char → Option Char → Int → Int → Int → Option Char →
    List Char → List (List Char) → List (List Char)
  | [], _, _, _, _, _, cur, acc => acc ++ [cur]
  | c :: rest, prev, bp, bb, bc, inStr, cur, acc =>
    if (c = '"' ∨ c = '\'') ∧ prev ≠ Option.some '\\' then
      let inStr2 :=
        if inStr = Option.some c then Option.none
        else if inStr = Option.none then Option.some c else inStr
      splitTopLevelAux rest (Option.some c) bp bb bc inStr2 (cur ++ [c]) acc
    else if inStr = Option.none then
      let bp2 := if c = '(' then bp + 1 else if c = ')' then bp - 1 else bp
      let bb2 := if c = '[' then bb + 1 else if c = ']' then bb - 1 else bb
      let bc2 := if c = '\x7b' then bc + 1 else if c = '\x7d' then bc - 1 else bc
      if c = ',' ∧ bp2 = 0 ∧ bb2 = 0 ∧ bc2 = 0 then
        splitTopLevelAux rest (Option.some c) bp2 bb2 bc2 Option.none [] (acc ++ [cur])
      else
        splitTopLevelAux rest (Option.some c) bp2 bb2 bc2 Option.none (cur ++ [c]) acc
    else
      splitTopLevelAux rest (Option.some c) bp bb bc inStr (cur ++ [c]) acc

/-- The argument splitter of `_parse_single_function_call`
(cognition_processor.py, lines 89-136): same depth/quote tracking, but
the flush condition also fires unconditionally at the last character
(which is then included in the segment), and each flushed `key=value`
pair is parsed immediately, errors aborting the whole call parse. -/
def splitArgsAux (funcCallStr : List Char) :
    List Char → Option Char → Int → Int → Int → Option Char → List Char →
    List (String × PyValue) → Except String (List (String × PyValue))
  | [], _, _, _, _, _, _, args => Except.ok args
  | c :: rest, prev, bp, bb, bc, inStr, cur, args =>
    let isQuote := (c = '"' ∨ c = '\'') ∧ prev ≠ Option.some '\\'
    let inStr2 :=
      if isQuote then
        if inStr = Option.some c then Option.none
        else if inStr = Option.none then Option.some c else inStr
      else inStr
    let doBal := ¬ isQuote ∧ inStr = Option.none
    let bp2 := if doBal ∧ c = '(' then bp + 1 else if doBal ∧ c = ')' then bp - 1 else bp
    let bb2 := if doBal ∧ c = '[' then bb + 1 else if doBal ∧ c = ']' then bb - 1 else bb
    let bc2 :=
      if doBal ∧ c = '\x7b' then bc + 1 else if doBal ∧ c = '\x7d' then bc - 1 else bc
    if (c = ',' ∧ bp2 = 0 ∧ bb2 = 0 ∧ bc2 = 0 ∧ inStr2 = Option.none) ∨ rest.isEmpty then
      let segment := if rest.isEmpty then cur ++ [c] else cur
      let piece := pyStripL segment
      if piece = [] then
        splitArgsAux funcCallStr rest (Option.some c) bp2 bb2 bc2 inStr2 [] args
      else
        match parseArgPair funcCallStr piece with
        | Except.error e => Except.error e
        | Except.ok kv =>
          splitArgsAux funcCallStr rest (Option.some c) bp2 bb2 bc2 inStr2 []
            (dictInsert args kv.1 kv.2)
    else
      splitArgsAux funcCallStr rest (Option.some c) bp2 bb2 bc2 inStr2 (cur ++ [c]) args

/-- `CognitionProcessor._parse_single_function_call`
(cognition_processor.py, lines 79-138): anchor
`([a-zA-Z_][a-zA-Z0-9_]*)\s*\((.*)\)$`, then split and parse the
arguments. -/
def parseSingleFunctionCall (funcCallStr : List Char) : Except String CallSpec :=
  match takeIdent funcCallStr with
  | Option.none =>
    Except.error ("Invalid function call format: '" ++ String.mk funcCallStr ++ "'")
  | Option.some (name, r1) =>
    match skipWs r1 with
    | '(' :: rest =>
      match rest.getLast? with
      | Option.some ')' =>
        let argsStr := pyStripL rest.dropLast
        if argsStr = [] then Except.ok { name := String.mk name, args := [] }
        else
          match splitArgsAux funcCallStr argsStr Option.none 0 0 0 Option.none [] [] with
          | Except.error e => Except.error e
          | Except.ok args => Except.ok { name := String.mk name, args := args }
      | _ => Except.error ("Invalid function call format: '" ++ String.mk funcCallStr ++ "'")
    | _ => Except.error ("Invalid function call format: '" ++ String.mk funcCallStr ++ "'")

/-- Parse each top-level call segment in order, propagating the first
error, as the Python loop does. -/
def traverseCalls : List (List Char) → Except String (List CallSpec)
  | [] => Except.ok []
  | p :: ps =>
    match parseSingleFunctionCall p with
    | Except.error e => Except.error e
    | Except.ok c =>
      match traverseCalls ps with
      | Except.error e => Except.error e
      | Except.ok cs => Except.ok (c :: cs)

/-- `CognitionProcessor.parse_function` (cognition_processor.py, lines
12-77): strip the input, anchor
`([a-zA-Z_][a-zA-Z0-9_]*)\s*=\s*\[(.*)\]$`, handle the empty list, then
split the body at top-level commas and parse each call. -/
def parseFunctionPlan (input : String) : Except String ParsedPlan :=
  let s := pyStripL input.data
  match takeIdent s with
  | Option.none => Except.error "Invalid format. Expected 'variable_name = [function_calls]'"
  | Option.some (varName, r1) =>
    match skipWs r1 with
    | '=' :: r3 =>
      match skipWs r3 with
      | '[' :: r5 =>
        match r5.getLast? with
        | Option.some ']' =>
          let functionsStr := pyStripL r5.dropLast
          if functionsStr = [] then
            Except.ok { variable_name := String.mk varName, functions := [] }
          else
            match traverseCalls
                (((splitTopLevelAux functionsStr Option.none 0 0 0 Option.none [] []).map
                  pyStripL).filter (fun x => x ≠ [])) with
            | Except.error e => Except.error e
            | Except.ok fs => Except.ok { variable_name := String.mk varName, functions := fs }
        | _ =>
          Except.error "Invalid format. Expected 'variable_name = [function_calls]'"
      | _ => Except.error "Invalid format. Expected 'variable_name = [function_calls]'"
    | _ => Except.error "Invalid format. Expected 'variable_name = [function_calls]'"

/-- The capability object seen by `create_function_callables`: its type
name and the set of public method names `getattr` can resolve. -/
structure CognitionInstance where
  typeName : String
  methods : List String

/-- The `AttributeError` message of `create_function_callables`
(cognition_processor.py, line 168). -/
def bindErrorMessage (funcName typeName : String) : String :=
  "Function '" ++ funcName ++ "' not found in " ++ typeName ++ "."

/-- The binding loop of `create_function_callables`
(cognition_processor.py, lines 157-177): resolve each call's name on the
capability object in order, failing on the first missing one.  A bound
zero-argument closure is modelled by the resolved `CallSpec` it captures
(method reference plus keyword arguments). -/
def bindFunctionCallables (inst : CognitionInstance) :
    List CallSpec → Except String (List CallSpec)
  | [] => Except.ok []
  | f :: fs =>
    if inst.methods.contains f.name then
      match bindFunctionCallables inst fs with
      | Except.error e => Except.error e
      | Except.ok cs => Except.ok (f :: cs)
    else Except.error (bindErrorMessage f.name inst.typeName)

/-- `CognitionProcessor.create_function_callables` (cognition_processor.py,
lines 141-177) on a parsed plan. -/
def createFunctionCallables (plan : ParsedPlan) (inst : CognitionInstance) :
    Except String (List CallSpec) :=
  bindFunctionCallables inst plan.functions

/-- The C7 example input string from the specification. -/
def c7Input : String :=
  "capabilities = [provide_normal_reply(prompt=\"hi there\"), plan_action_sequence(request=[\x7b'interface': 'Movement', 'action': 'move_forward', 'params': \x7b'distance': 2.0\x7d\x7d])]"

/-- The parse result the C7 example must produce. -/
def c7Expected : ParsedPlan :=
  { variable_name := "capabilities",
    functions :=
      [ { name := "provide_normal_reply",
          args := [("prompt", PyValue.str "hi there")] },
        { name := "plan_action_sequence",
          args := [("request", PyValue.list [PyValue.dict
            [ (PyValue.str "interface", PyValue.str "Movement"),
              (PyValue.str "action", PyValue.str "move_forward"),
              (PyValue.str "params",
                PyValue.dict [(PyValue.str "distance", PyValue.float 20 (-1))]) ]])] } ] }

/-- A capability object lacking the capability "fly", for closed
evaluations of the binder. -/
def cogDemo : CognitionInstance :=
  { typeName := "Cognition",
    methods := ["provide_normal_reply", "plan_action_sequence"] }

/-- A parsed plan requesting the missing capability "fly". -/
def planDemo : ParsedPlan :=
  { variable_name := "capabilities", functions := [{ name := "fly", args := [] }] }

/-! ## HiveMind (src/brain/src/ai/mind/hive_mind.py) -/

/-- `startswith` over the character-list representation. -/
def strStartsWith (s pre : String) : Bool := pre.data.isPrefixOf s.data

/-- The per-member error string built in `HiveMind.debate`
(hive_mind.py, line 127) when a member's communicate call raises. -/
def memberErrorMessage (memberName errText : String) : String :=
  "Error: Could not get response from " ++ memberName ++ ". Details: " ++ errText

/-- The response slots produced by one `HiveMind.debate` round: each
member's outcome (the awaited `communicate` result, or the exception it
raised) becomes either the response text or the error string in that
member's slot, keyed by member index in order. -/
def debateResponses (members : List String) (outcomes : List (Except String String)) :
    List String :=
  (members.zip outcomes).map (fun p =>
    match p.2 with
    | Except.ok r => r
    | Except.error e => memberErrorMessage p.1 e)

/-- The Round-1 text block embedded into the Round-2 synthesis prompt
(hive_mind.py, lines 180-185): every member's slot, error strings
included, joined by blank lines. -/
def hiveRound1Formatted (members : List String) (outcomes1 : List (Except String String)) :
    String :=
  String.intercalate "\n\n"
    ((members.zip (debateResponses members outcomes1)).map (fun p => p.1 ++ ":\n" ++ p.2))

/-- The fallback decision string returned when every Round-2 synthesis
slot is an error (hive_mind.py, line 212). -/
def hiveSynthesisFallback (collectiveName : String) (members : List String)
    (outcomes1 : List (Except String String)) : String :=
  "[" ++ collectiveName ++ "] Deliberation failed during synthesis. Initial thoughts were:\n"
    ++ hiveRound1Formatted members outcomes1

/-- `HiveMind.deliberate` (hive_mind.py, lines 150-256), with the two
rounds' per-member outcomes as inputs (the fan-out itself is the
external LLM boundary).  `Except.error` is a raised `RuntimeError`;
`Except.ok` is a returned decision string.  Faithful control flow: no
members raises; the Round-1 all-failed check (lines 188-193) only logs -
its raise is commented out - and deliberation proceeds; an all-error
Round 2 returns the fallback decision string (line 214) instead of
raising; otherwise member 0's synthesis is chosen, falling back to the
first non-error synthesis when member 0's slot is an error. -/
def hiveDeliberate (collectiveName : String) (members : List String)
    (outcomes1 outcomes2 : List (Except String String)) : Except String String :=
  if members = [] then
    Except.error ("[" ++ collectiveName ++ "] No AI members initialized for deliberation.")
  else
    let responses2 := debateResponses members outcomes2
    if responses2.isEmpty ∨ responses2.all (fun r => strStartsWith r "Error:") then
      Except.ok (hiveSynthesisFallback collectiveName members outcomes1)
    else
      let finalText := responses2.headD "Error: Could not retrieve final decision."
      if strStartsWith finalText "Error:" then
        match responses2.find? (fun r => ! strStartsWith r "Error:") with
        | Option.some r => Except.ok r
        | Option.none =>
          Except.ok ("[" ++ collectiveName
            ++ "] Deliberation failed: All members encountered errors during synthesis.\n\n"
            ++ String.intercalate "\n\n"
              ((members.zip responses2).map (fun p =>
                p.1 ++ "'s synthesis attempt:\n" ++ p.2)))
      else Except.ok finalText

/-! ## Theorems -/

/-- Round-trip of the FileProtector layout, shared helper: decrypting an
`encrypt` result with the same password recovers the plaintext. -/
theorem fp_decrypt_encrypt (A : AEAD) (kdf : Bytes → Bytes → Bytes)
    (password salt nonce p e : Bytes)
    (hpw : password ≠ []) (hs : salt.length = KDF_SALT_SIZE)
    (hn : nonce.length = IV_NONCE_SIZE) (hp : p ≠ [])
    (he : FileProtector.encrypt A kdf password salt nonce p = some e) :
    FileProtector.decrypt A kdf password e = some p := by
  have hct : (A.encFn (kdf password salt) nonce p).length = p.length :=
    A.encFn_length _ _ _
  have htag :
      (A.tagFn (kdf password salt) nonce (A.encFn (kdf password salt) nonce p)).length = 16 :=
    A.tagFn_length _ _ _
  have hplen : 1 ≤ p.length := List.length_pos.mpr hp
  rw [FileProtector.encrypt, if_neg hpw] at he
  set ct := A.encFn (kdf password salt) nonce p with hctdef
  set tg := A.tagFn (kdf password salt) nonce ct with htgdef
  have he' : e = salt ++ nonce ++ ct ++ tg := by
    simpa using he.symm
  subst he'
  have hlen : (salt ++ nonce ++ ct ++ tg).length = 44 + p.length := by
    simp [hs, hn, hct, htag, KDF_SALT_SIZE, IV_NONCE_SIZE]
    omega
  rw [FileProtector.decrypt, if_neg hpw]
  rw [if_neg (by
    rw [hlen]
    simp [KDF_SALT_SIZE, IV_NONCE_SIZE, GCM_TAG_SIZE]
    omega)]
  have htake_salt : (salt ++ nonce ++ ct ++ tg).take KDF_SALT_SIZE = salt := by
    rw [List.append_assoc, List.append_assoc]
    exact List.take_left' hs
  have hdrop_salt : (salt ++ nonce ++ ct ++ tg).drop KDF_SALT_SIZE = nonce ++ ct ++ tg := by
    rw [List.append_assoc, List.append_assoc]
    simpa using @List.drop_left' _ salt (nonce ++ (ct ++ tg)) KDF_SALT_SIZE hs
  have htake_nonce : ((salt ++ nonce ++ ct ++ tg).drop KDF_SALT_SIZE).take IV_NONCE_SIZE
      = nonce := by
    rw [hdrop_salt, List.append_assoc]
    exact List.take_left' hn
  have hsn : (salt ++ nonce).length = KDF_SALT_SIZE + IV_NONCE_SIZE := by
    simp [hs, hn]
  have hdrop_sn : (salt ++ nonce ++ ct ++ tg).drop (KDF_SALT_SIZE + IV_NONCE_SIZE)
      = ct ++ tg := by
    have : salt ++ nonce ++ ct ++ tg = (salt ++ nonce) ++ (ct ++ tg) := by
      simp [List.append_assoc]
    rw [this]
    exact List.drop_left' hsn
  have htagStart : (salt ++ nonce ++ ct ++ tg).length - GCM_TAG_SIZE
      = KDF_SALT_SIZE + IV_NONCE_SIZE + p.length := by
    rw [hlen]
    simp [KDF_SALT_SIZE, IV_NONCE_SIZE, GCM_TAG_SIZE]
    omega
  have htake_ct : ((salt ++ nonce ++ ct ++ tg).drop (KDF_SALT_SIZE + IV_NONCE_SIZE)).take
      ((salt ++ nonce ++ ct ++ tg).length - GCM_TAG_SIZE - (KDF_SALT_SIZE + IV_NONCE_SIZE))
      = ct := by
    rw [hdrop_sn, htagStart]
    have : KDF_SALT_SIZE + IV_NONCE_SIZE + p.length - (KDF_SALT_SIZE + IV_NONCE_SIZE)
        = p.length := by omega
    rw [this]
    exact List.take_left' hct
  have hdrop_tag : (salt ++ nonce ++ ct ++ tg).drop
      ((salt ++ nonce ++ ct ++ tg).length - GCM_TAG_SIZE) = tg := by
    rw [htagStart]
    have hsnc : (salt ++ nonce ++ ct).length = KDF_SALT_SIZE + IV_NONCE_SIZE + p.length := by
      simp [hs, hn, hct]
      omega
    have : salt ++ nonce ++ ct ++ tg = (salt ++ nonce ++ ct) ++ tg := by
      simp [List.append_assoc]
    rw [this]
    exact List.drop_left' hsnc
  simp only [htake_salt, htake_nonce, htake_ct, hdrop_tag]
  simp only [if_true, hctdef, A.decFn_encFn]

/-- C1: for every non-empty plaintext `p`, valid-size salt and nonce and a
non-empty password, decrypting the blob produced by
`FileProtector.encrypt` with the same password returns exactly `p`. -/
theorem fileProtector_roundtrip (A : AEAD) (kdf : Bytes → Bytes → Bytes)
    (password salt nonce p e : Bytes)
    (hpw : password ≠ []) (hs : salt.length = KDF_SALT_SIZE)
    (hn : nonce.length = IV_NONCE_SIZE) (hp : p ≠ [])
    (he : FileProtector.encrypt A kdf password salt nonce p = some e) :
    FileProtector.decrypt A kdf password e = some p :=
  fp_decrypt_encrypt A kdf password salt nonce p e hpw hs hn hp he

/-- Witness for C1 at a concrete input: password `[1]`, all-zero salt and
nonce, plaintext `[7]`. -/
theorem fileProtector_roundtrip_witness :
    FileProtector.decrypt idAEAD constKdf [1]
      (List.replicate 16 0 ++ List.replicate 12 0 ++ [7] ++ List.replicate 16 0)
      = some [7] :=
  fileProtector_roundtrip idAEAD constKdf [1] (List.replicate 16 0)
    (List.replicate 12 0) [7]
    (List.replicate 16 0 ++ List.replicate 12 0 ++ [7] ++ List.replicate 16 0)
    (by decide) (by decide) (by decide) (by decide) (by rfl)

/-- C2: `FileProtector.decrypt` is fail-closed: it is a total function
(no exception reaches the caller), it returns `none` on every blob
shorter than the 45-byte minimum `16 + 12 + 16 + 1`, and it returns
`none` whenever the recomputed authentication tag differs from the
stored tag (wrong password or corrupted data); both failure modes
produce the same value `none`, hence are indistinguishable to the
caller. -/
theorem decrypt_fail_closed (A : AEAD) (kdf : Bytes → Bytes → Bytes)
    (password b : Bytes) :
    (b.length < 45 → FileProtector.decrypt A kdf password b = none) ∧
    (45 ≤ b.length →
      A.tagFn (kdf password (b.take KDF_SALT_SIZE))
          ((b.drop KDF_SALT_SIZE).take IV_NONCE_SIZE)
          ((b.drop (KDF_SALT_SIZE + IV_NONCE_SIZE)).take
            (b.length - GCM_TAG_SIZE - (KDF_SALT_SIZE + IV_NONCE_SIZE)))
        ≠ b.drop (b.length - GCM_TAG_SIZE) →
      FileProtector.decrypt A kdf password b = none) := by
  constructor
  · intro hshort
    rw [FileProtector.decrypt]
    by_cases hpw : password = []
    · rw [if_pos hpw]
    · rw [if_neg hpw, if_pos (by simpa [KDF_SALT_SIZE, IV_NONCE_SIZE, GCM_TAG_SIZE] using hshort)]
  · intro _ hbad
    rw [FileProtector.decrypt]
    by_cases hpw : password = []
    · rw [if_pos hpw]
    · rw [if_neg hpw]
      by_cases hshort : b.length < KDF_SALT_SIZE + IV_NONCE_SIZE + GCM_TAG_SIZE + 1
      · rw [if_pos hshort]
      · rw [if_neg hshort]
        simp only [if_neg hbad]

/-- Witness for C2 at concrete inputs: the empty blob is shorter than 45
bytes and is rejected; a 45-byte blob whose stored tag does not match the
recomputed tag is rejected. -/
theorem decrypt_fail_closed_witness :
    FileProtector.decrypt idAEAD constKdf [1] [] = none ∧
    FileProtector.decrypt idAEAD constKdf [1] (List.replicate 44 0 ++ [9]) = none := by
  constructor
  · exact (decrypt_fail_closed idAEAD constKdf [1] []).1 (by decide)
  · exact (decrypt_fail_closed idAEAD constKdf [1] (List.replicate 44 0 ++ [9])).2
      (by decide) (by decide)

/-- Helper: `FileProtector.encrypt` never returns an empty blob (the
blob always contains the 16-byte tag). -/
theorem fp_encrypt_ne_nil (A : AEAD) (kdf : Bytes → Bytes → Bytes)
    (password salt nonce p e : Bytes)
    (he : FileProtector.encrypt A kdf password salt nonce p = some e) :
    e ≠ [] := by
  rw [FileProtector.encrypt] at he
  by_cases hpw : password = []
  · simp [hpw] at he
  · rw [if_neg hpw] at he
    simp only [Option.some.injEq] at he
    intro hnil
    rw [hnil] at he
    have hlen := congrArg List.length he
    simp only [List.length_append, A.tagFn_length, List.length_nil] at hlen
    omega

/-- Helper: under a non-empty password `FileProtector.encrypt` returns a
blob. -/
theorem fp_encrypt_isSome (A : AEAD) (kdf : Bytes → Bytes → Bytes)
    (password salt nonce p : Bytes) (hpw : password ≠ []) :
    ∃ e, FileProtector.encrypt A kdf password salt nonce p = some e := by
  rw [FileProtector.encrypt, if_neg hpw]
  exact ⟨_, rfl⟩

/-- Helper: when the highest-indexed fragment is at or below the size
threshold, `saveFormattedFragment` preserves the number of fragment
files (it either skips the save or overwrites in place). -/
theorem saveFormatted_length_append_case (A : AEAD) (kdf : Bytes → Bytes → Bytes)
    (password : Bytes) (C : TextCodec) (salt nonce : Bytes) (text : String)
    (dir : FragmentDir) (i : Nat) (content : Bytes)
    (hmax : maxFragment dir = Option.some (i, content))
    (hsize : content.length ≤ thresholdBytes) :
    (saveFormattedFragment A kdf password C salt nonce text dir).length = dir.length := by
  rw [saveFormattedFragment]
  by_cases ht : pyStrip text = ""
  · rw [if_pos ht]
  · rw [if_neg ht, hmax]
    simp only [if_pos hsize]
    cases hbind : (FileProtector.decrypt A kdf password content).bind C.dec with
    | none => rfl
    | some oldText =>
      simp only
      cases henc : FileProtector.encrypt A kdf password salt nonce
          (C.enc (oldText ++ FRAGMENT_SEPARATOR ++ text)) with
      | none => rfl
      | some e =>
        simp only
        by_cases hnil : e = []
        · rw [if_pos hnil]
        · rw [if_neg hnil]
          simp [overwriteFragment]

/-- Helper: the no-fragments branch of `saveFormattedFragment` writes a
fresh fragment at index 0. -/
theorem saveFormatted_fresh_case (A : AEAD) (kdf : Bytes → Bytes → Bytes)
    (password : Bytes) (C : TextCodec) (salt nonce : Bytes) (text : String)
    (dir : FragmentDir)
    (htext : pyStrip text ≠ "") (hmax : maxFragment dir = Option.none)
    (hpw : password ≠ []) :
    ∃ e, FileProtector.encrypt A kdf password salt nonce (C.enc text) = some e ∧
      saveFormattedFragment A kdf password C salt nonce text dir = dir ++ [(0, e)] := by
  obtain ⟨e, he⟩ := fp_encrypt_isSome A kdf password salt nonce (C.enc text) hpw
  refine ⟨e, he, ?_⟩
  rw [saveFormattedFragment, if_neg htext, hmax]
  simp only [he]
  rw [if_neg (fp_encrypt_ne_nil A kdf password salt nonce _ e he)]

/-- Helper: the append branch of `saveFormattedFragment` overwrites the
highest-indexed fragment with the re-encrypted concatenation. -/
theorem saveFormatted_append_case (A : AEAD) (kdf : Bytes → Bytes → Bytes)
    (password : Bytes) (C : TextCodec) (salt nonce : Bytes) (text : String)
    (dir : FragmentDir) (i : Nat) (content : Bytes) (oldText : String)
    (htext : pyStrip text ≠ "")
    (hmax : maxFragment dir = Option.some (i, content))
    (hsize : content.length ≤ thresholdBytes)
    (hbind : (FileProtector.decrypt A kdf password content).bind C.dec
      = Option.some oldText)
    (hpw : password ≠ []) :
    ∃ e, FileProtector.encrypt A kdf password salt nonce
        (C.enc (oldText ++ FRAGMENT_SEPARATOR ++ text)) = some e ∧
      saveFormattedFragment A kdf password C salt nonce text dir
        = overwriteFragment dir i e := by
  obtain ⟨e, he⟩ := fp_encrypt_isSome A kdf password salt nonce
    (C.enc (oldText ++ FRAGMENT_SEPARATOR ++ text)) hpw
  refine ⟨e, he, ?_⟩
  rw [saveFormattedFragment, if_neg htext, hmax]
  simp only [if_pos hsize, hbind]
  simp only [he]
  rw [if_neg (fp_encrypt_ne_nil A kdf password salt nonce _ e he)]

/-- Helper: the roll-over branch of `saveFormattedFragment` writes a new
fragment at the old maximum index plus one. -/
theorem saveFormatted_rollover_case (A : AEAD) (kdf : Bytes → Bytes → Bytes)
    (password : Bytes) (C : TextCodec) (salt nonce : Bytes) (text : String)
    (dir : FragmentDir) (i : Nat) (content : Bytes)
    (htext : pyStrip text ≠ "")
    (hmax : maxFragment dir = Option.some (i, content))
    (hsize : thresholdBytes < content.length)
    (hpw : password ≠ []) :
    ∃ e, FileProtector.encrypt A kdf password salt nonce (C.enc text) = some e ∧
      saveFormattedFragment A kdf password C salt nonce text dir
        = dir ++ [(i + 1, e)] := by
  obtain ⟨e, he⟩ := fp_encrypt_isSome A kdf password salt nonce (C.enc text) hpw
  refine ⟨e, he, ?_⟩
  rw [saveFormattedFragment, if_neg htext, hmax]
  simp only [if_neg (not_le.mpr hsize)]
  simp only [he]
  rw [if_neg (fp_encrypt_ne_nil A kdf password salt nonce _ e he)]

/-- Helper: strings ending in a `FRAGMENT_SEPARATOR`-joined
concatenation are never empty. -/
theorem sep_concat_ne_empty (a b : String) :
    a ++ FRAGMENT_SEPARATOR ++ b ≠ "" := by
  intro h
  have hd := congrArg String.data h
  simp [String.data_append, FRAGMENT_SEPARATOR] at hd

/-- Helper: a string whose Python strip is non-empty is non-empty. -/
theorem ne_empty_of_pyStrip_ne (s : String) (h : pyStrip s ≠ "") : s ≠ "" := by
  intro hs
  rw [hs] at h
  exact h rfl

/-- C3 (amended): with non-empty formatted session text,
`saveCurrentSessionAsFragment` writes a brand-new fragment at index 0
when no indexed fragment exists; when the highest-indexed fragment
exists with size at or below the threshold (not: strictly below) and it
decrypts, the fragment count stays unchanged and that file is
overwritten with the encryption of existing text + separator + new
text; when the highest-indexed fragment's size is strictly above the
threshold (not: at or above), the count grows by exactly one and the
new fragment's index is the old maximum plus one. -/
theorem save_append_or_rollover (A : AEAD) (kdf : Bytes → Bytes → Bytes)
    (password : Bytes) (C : TextCodec) (fill : String → String)
    (maxTurns : Option Nat) (turns : List Turn) (salt nonce : Bytes)
    (dir : FragmentDir)
    (hpw : password ≠ []) (hs : salt.length = KDF_SALT_SIZE)
    (hn : nonce.length = IV_NONCE_SIZE)
    (htext :
      pyStrip (formatSessionTurnsAsFragment fill (trimSessionTurns maxTurns turns)) ≠ "") :
    (maxFragment dir = Option.none →
      ∃ e, saveCurrentSessionAsFragment A kdf password C fill maxTurns turns salt nonce dir
          = dir ++ [(0, e)] ∧
        (FileProtector.decrypt A kdf password e).bind C.dec
          = Option.some (formatSessionTurnsAsFragment fill (trimSessionTurns maxTurns turns))) ∧
    (∀ i content oldText,
      maxFragment dir = Option.some (i, content) →
      content.length ≤ thresholdBytes →
      (FileProtector.decrypt A kdf password content).bind C.dec = Option.some oldText →
      ∃ e, saveCurrentSessionAsFragment A kdf password C fill maxTurns turns salt nonce dir
          = overwriteFragment dir i e ∧
        (saveCurrentSessionAsFragment A kdf password C fill maxTurns turns salt nonce dir).length
          = dir.length ∧
        (FileProtector.decrypt A kdf password e).bind C.dec
          = Option.some (oldText ++ FRAGMENT_SEPARATOR
              ++ formatSessionTurnsAsFragment fill (trimSessionTurns maxTurns turns))) ∧
    (∀ i content,
      maxFragment dir = Option.some (i, content) →
      thresholdBytes < content.length →
      ∃ e, saveCurrentSessionAsFragment A kdf password C fill maxTurns turns salt nonce dir
          = dir ++ [(i + 1, e)] ∧
        (saveCurrentSessionAsFragment A kdf password C fill maxTurns turns salt nonce dir).length
          = dir.length + 1 ∧
        (FileProtector.decrypt A kdf password e).bind C.dec
          = Option.some (formatSessionTurnsAsFragment fill (trimSessionTurns maxTurns turns))) := by
  simp only [saveCurrentSessionAsFragment]
  set text := formatSessionTurnsAsFragment fill (trimSessionTurns maxTurns turns) with htextdef
  have htext' : text ≠ "" := ne_empty_of_pyStrip_ne text htext
  refine ⟨?_, ?_, ?_⟩
  · intro hmax
    obtain ⟨e, he, hsave⟩ :=
      saveFormatted_fresh_case A kdf password C salt nonce text dir htext hmax hpw
    refine ⟨e, hsave, ?_⟩
    rw [fp_decrypt_encrypt A kdf password salt nonce (C.enc text) e hpw hs hn
      (C.enc_ne text htext') he]
    simp [C.dec_enc]
  · intro i content oldText hmax hsize hbind
    obtain ⟨e, he, hsave⟩ :=
      saveFormatted_append_case A kdf password C salt nonce text dir i content oldText
        htext hmax hsize hbind hpw
    refine ⟨e, hsave, ?_, ?_⟩
    · exact saveFormatted_length_append_case A kdf password C salt nonce text dir i content
        hmax hsize
    · have hne : oldText ++ FRAGMENT_SEPARATOR ++ text ≠ "" :=
        sep_concat_ne_empty oldText text
      rw [fp_decrypt_encrypt A kdf password salt nonce
        (C.enc (oldText ++ FRAGMENT_SEPARATOR ++ text)) e hpw hs hn
        (C.enc_ne _ hne) he]
      simp [C.dec_enc]
  · intro i content hmax hsize
    obtain ⟨e, he, hsave⟩ :=
      saveFormatted_rollover_case A kdf password C salt nonce text dir i content
        htext hmax hsize hpw
    refine ⟨e, hsave, ?_, ?_⟩
    · rw [hsave]
      simp
    · rw [fp_decrypt_encrypt A kdf password salt nonce (C.enc text) e hpw hs hn
        (C.enc_ne text htext') he]
      simp [C.dec_enc]

/-- C3 counterexample: a single fragment whose size equals the 100 MiB
threshold exactly is *at* the threshold, yet the save appends in place
(the code's branch condition is `size <= threshold`), so the fragment
count does not increase by one as the claim states. -/
theorem save_at_threshold_counterexample :
    thresholdBytes ≤ (List.replicate thresholdBytes 0 : Bytes).length ∧
    pyStrip (formatSessionTurnsAsFragment id (trimSessionTurns (Option.some 1) [demoTurn]))
      ≠ "" ∧
    ¬ ((saveCurrentSessionAsFragment idAEAD constKdf [1] charCodec id (Option.some 1)
        [demoTurn] (List.replicate 16 0) (List.replicate 12 0)
        [(0, List.replicate thresholdBytes 0)]).length
      = [(0, (List.replicate thresholdBytes 0 : Bytes))].length + 1) := by
  refine ⟨by simp, by decide, ?_⟩
  have h := saveFormatted_length_append_case idAEAD constKdf [1] charCodec
    (List.replicate 16 0) (List.replicate 12 0)
    (formatSessionTurnsAsFragment id (trimSessionTurns (Option.some 1) [demoTurn]))
    [(0, List.replicate thresholdBytes 0)] 0 (List.replicate thresholdBytes 0)
    rfl (by simp)
  rw [saveCurrentSessionAsFragment, h]
  simp

/-- Witness for C3 at a concrete input: saving a one-turn session into an
empty directory creates the index-0 fragment, which decrypts back to the
formatted session text. -/
theorem save_append_or_rollover_witness :
    ∃ e, saveCurrentSessionAsFragment idAEAD constKdf [1] charCodec id (Option.some 1)
        [demoTurn] (List.replicate 16 0) (List.replicate 12 0) [] = [] ++ [(0, e)] ∧
      (FileProtector.decrypt idAEAD constKdf [1] e).bind charCodec.dec
        = Option.some (formatSessionTurnsAsFragment id (trimSessionTurns (Option.some 1) [demoTurn])) :=
  (save_append_or_rollover idAEAD constKdf [1] charCodec id (Option.some 1) [demoTurn]
    (List.replicate 16 0) (List.replicate 12 0) []
    (by decide) (by decide) (by decide) (by decide)).1 rfl

/-- C4 (amended): when the trimmed-and-formatted session text is empty,
`saveCurrentSessionAsFragment` returns with the fragment directory
completely unchanged: nothing is written, and no fragment file is
deleted. -/
theorem save_empty_session_no_delete (A : AEAD) (kdf : Bytes → Bytes → Bytes)
    (password : Bytes) (C : TextCodec) (fill : String → String)
    (maxTurns : Option Nat) (turns : List Turn) (salt nonce : Bytes)
    (dir : FragmentDir)
    (h : pyStrip (formatSessionTurnsAsFragment fill (trimSessionTurns maxTurns turns)) = "") :
    saveCurrentSessionAsFragment A kdf password C fill maxTurns turns salt nonce dir = dir := by
  rw [saveCurrentSessionAsFragment, saveFormattedFragment, if_pos h]

/-- C4 counterexample: an empty session saved over a directory holding
the fragment `(0, [1, 2, 3])` leaves that fragment in place - the code
returns early without deleting the most-recent fragment file, contrary
to the claim. -/
theorem save_empty_session_counterexample :
    saveCurrentSessionAsFragment idAEAD constKdf [1] charCodec id Option.none []
      (List.replicate 16 0) (List.replicate 12 0) [(0, [1, 2, 3])] = [(0, [1, 2, 3])] := by
  decide

/-- Witness for the amended C4 at a concrete input: a `some 0` trim
setting empties the session, and the directory `[(5, [9])]` is returned
untouched. -/
theorem save_empty_session_no_delete_witness :
    saveCurrentSessionAsFragment idAEAD constKdf [1] charCodec id (Option.some 0) [demoTurn]
      (List.replicate 16 0) (List.replicate 12 0) [(5, [9])] = [(5, [9])] :=
  save_empty_session_no_delete idAEAD constKdf [1] charCodec id (Option.some 0) [demoTurn]
    (List.replicate 16 0) (List.replicate 12 0) [(5, [9])] (by decide)

/-- C10: when the highest-indexed fragment has size at or below the
threshold but the append path fails (the fragment fails to decrypt or to
decode, e.g. corrupt data or a wrong password), the save returns
normally, every existing fragment file is unchanged, and no fallback
fragment is created at the next index - the session is silently not
persisted. -/
theorem save_append_failure_noop (A : AEAD) (kdf : Bytes → Bytes → Bytes)
    (password : Bytes) (C : TextCodec) (fill : String → String)
    (maxTurns : Option Nat) (turns : List Turn) (salt nonce : Bytes)
    (dir : FragmentDir) (i : Nat) (content : Bytes)
    (hmax : maxFragment dir = Option.some (i, content))
    (hsize : content.length ≤ thresholdBytes)
    (hfail : (FileProtector.decrypt A kdf password content).bind C.dec = Option.none) :
    saveCurrentSessionAsFragment A kdf password C fill maxTurns turns salt nonce dir = dir := by
  rw [saveCurrentSessionAsFragment, saveFormattedFragment]
  by_cases ht :
      pyStrip (formatSessionTurnsAsFragment fill (trimSessionTurns maxTurns turns)) = ""
  · rw [if_pos ht]
  · rw [if_neg ht, hmax]
    simp [if_pos hsize, hfail]

/-- Witness for C10 at a concrete input: the fragment `(0, [0])` is far
below the threshold but too short to decrypt, so the save leaves the
directory unchanged. -/
theorem save_append_failure_noop_witness :
    saveCurrentSessionAsFragment idAEAD constKdf [1] charCodec id Option.none [demoTurn]
      (List.replicate 16 0) (List.replicate 12 0) [(0, [0])] = [(0, [0])] :=
  save_append_failure_noop idAEAD constKdf [1] charCodec id Option.none [demoTurn]
    (List.replicate 16 0) (List.replicate 12 0) [(0, [0])] 0 [0]
    rfl (by decide) (by decide)

/-- C6: the trim policy of the save path: `none` (from a `None` or
`"ALL"` setting) keeps every entry; `some 0` keeps nothing and makes the
save a no-op; `some n` with `n > 0` keeps exactly the last `n * 2`
entries when the session is longer than that, except that a one-entry
session (an orphan user turn) is kept as-is; concretely, a one-turn
session with setting `some 1` is still saved as a fragment. -/
theorem trim_policy (turns : List Turn) :
    (trimSessionTurns Option.none turns = turns) ∧
    (processMaxSessionTurns MaxTurnsInput.nothing = Except.ok Option.none) ∧
    (processMaxSessionTurns (MaxTurnsInput.str "ALL") = Except.ok Option.none) ∧
    (trimSessionTurns (Option.some 0) turns = []) ∧
    (∀ (A : AEAD) (kdf : Bytes → Bytes → Bytes) (password : Bytes) (C : TextCodec)
      (fill : String → String) (salt nonce : Bytes) (dir : FragmentDir),
      saveCurrentSessionAsFragment A kdf password C fill (Option.some 0) turns salt nonce dir
        = dir) ∧
    (∀ n : Nat, 0 < n → n * 2 < turns.length →
      trimSessionTurns (Option.some n) turns = turns.drop (turns.length - n * 2)) ∧
    (turns.length = 1 → ∀ n : Nat, 0 < n →
      trimSessionTurns (Option.some n) turns = turns) ∧
    (saveCurrentSessionAsFragment idAEAD constKdf [1] charCodec id (Option.some 1) [demoTurn]
        (List.replicate 16 0) (List.replicate 12 0) []
      = [(0, (FileProtector.encrypt idAEAD constKdf [1] (List.replicate 16 0)
          (List.replicate 12 0)
          (charCodec.enc (formatSessionTurnsAsFragment id
            (trimSessionTurns (Option.some 1) [demoTurn])))).getD [])]) := by
  refine ⟨rfl, rfl, rfl, rfl, ?_, ?_, ?_, by decide⟩
  · intro A kdf password C fill salt nonce dir
    rfl
  · intro n hn hlen
    rw [trimSessionTurns]
    rw [if_neg (by omega : ¬ n = 0)]
    rw [if_neg (by omega : ¬ (0 < turns.length ∧ turns.length < 2))]
    rw [if_pos hlen]
  · intro h1 n hn
    rw [trimSessionTurns]
    rw [if_neg (by omega : ¬ n = 0)]
    rw [if_pos (by omega : 0 < turns.length ∧ turns.length < 2)]

/-- Witness for C6 at concrete inputs: with setting `some 2` a five-turn
session trims to exactly its last four turns. -/
theorem trim_policy_witness :
    trimSessionTurns (Option.some 2) fiveTurns
      = fiveTurns.drop (fiveTurns.length - 2 * 2) :=
  (trim_policy fiveTurns).2.2.2.2.2.1 2 (by decide) (by decide)

/-- Helper: membership through stable insertion. -/
theorem mem_stableInsertByKey {α : Type} (key : α → Int) (x a : α) (l : List α) :
    a ∈ stableInsertByKey key x l ↔ a = x ∨ a ∈ l := by
  induction l with
  | nil => simp [stableInsertByKey]
  | cons y ys ih =>
    rw [stableInsertByKey]
    by_cases h : key x ≤ key y
    · rw [if_pos h]
      simp
    · rw [if_neg h]
      simp only [List.mem_cons, ih]
      tauto

/-- Helper: membership through the stable key sort. -/
theorem mem_sortByKey {α : Type} (key : α → Int) (a : α) (l : List α) :
    a ∈ sortByKey key l ↔ a ∈ l := by
  induction l with
  | nil => simp [sortByKey]
  | cons x xs ih =>
    rw [sortByKey, mem_stableInsertByKey]
    simp [ih]

/-- Helper: stable insertion preserves key-sortedness. -/
theorem sorted_stableInsertByKey {α : Type} (key : α → Int) (x : α) (l : List α)
    (h : l.Pairwise (fun a b => key a ≤ key b)) :
    (stableInsertByKey key x l).Pairwise (fun a b => key a ≤ key b) := by
  induction l with
  | nil => simp [stableInsertByKey]
  | cons y ys ih =>
    rw [stableInsertByKey]
    rcases List.pairwise_cons.mp h with ⟨hy, hys⟩
    by_cases hxy : key x ≤ key y
    · rw [if_pos hxy]
      refine List.pairwise_cons.mpr ⟨?_, h⟩
      intro z hz
      rcases List.mem_cons.mp hz with rfl | hz
      · exact hxy
      · exact le_trans hxy (hy z hz)
    · rw [if_neg hxy]
      refine List.pairwise_cons.mpr ⟨?_, ih hys⟩
      intro z hz
      rcases (mem_stableInsertByKey key x z ys).mp hz with rfl | hz
      · exact le_of_lt (not_le.mp hxy)
      · exact hy z hz

/-- Helper: the stable key sort produces a key-sorted list. -/
theorem sorted_sortByKey {α : Type} (key : α → Int) (l : List α) :
    (sortByKey key l).Pairwise (fun a b => key a ≤ key b) := by
  induction l with
  | nil => simp [sortByKey]
  | cons x xs ih => exact sorted_stableInsertByKey key x _ ih

/-- C5 (amended): `loadMemoryFragments` sorts the globbed files by the
numeric index embedded in the filename - but files with non-matching or
unparsable indices are keyed `-1` and therefore sort *first* (before all
numeric indices), and they are decrypted and returned like any other
file rather than skipped; fragments that fail to decrypt/decode or strip
to empty are dropped; surviving fragments are returned in ascending key
order independent of the on-disk (glob) order.  Concretely, files
written in order 000, 002, 001 load as 000, 001, 002. -/
theorem loadMemoryFragments_order (A : AEAD) (kdf : Bytes → Bytes → Bytes)
    (password : Bytes) (C : TextCodec) (filePfx ext : String) :
    (loadMemoryFragments idAEAD constKdf [1] charCodec "m" ".enc"
      [("m_000.enc", demoBlob "ZERO"), ("m_002.enc", demoBlob "TWO"),
        ("m_001.enc", demoBlob "ONE")]
      = ["ZERO", "ONE", "TWO"]) ∧
    (∀ (files : List (String × Bytes)) (s : String),
      s ∈ loadMemoryFragments A kdf password C filePfx ext files →
      ∃ f, f ∈ files ∧ f.2 ≠ [] ∧
        (FileProtector.decrypt A kdf password f.2).bind C.dec = Option.some s ∧
        pyStrip s ≠ "") ∧
    (∀ files : List (String × Bytes),
      (∀ f, f ∈ files → (FileProtector.decrypt A kdf password f.2).bind C.dec
        = Option.none) →
      loadMemoryFragments A kdf password C filePfx ext files = []) ∧
    (∀ (files : List (String × Bytes)),
      ((sortByKey (fun f => getIndexKey filePfx.data ext.data f.1.data) files).map
        (fun f => getIndexKey filePfx.data ext.data f.1.data)).Pairwise (· ≤ ·)) := by
  have hmem : ∀ (files : List (String × Bytes)) (s : String),
      s ∈ loadMemoryFragments A kdf password C filePfx ext files →
      ∃ f, f ∈ files ∧ f.2 ≠ [] ∧
        (FileProtector.decrypt A kdf password f.2).bind C.dec = Option.some s ∧
        pyStrip s ≠ "" := by
    intro files s hs
    rw [loadMemoryFragments] at hs
    rcases List.mem_filterMap.mp hs with ⟨f, hf, hg⟩
    refine ⟨f, (mem_sortByKey _ f files).mp hf, ?_, ?_, ?_⟩
    · intro hnil
      rw [if_pos hnil] at hg
      exact Option.noConfusion hg
    · by_cases hnil : f.2 = []
      · rw [if_pos hnil] at hg
        exact Option.noConfusion hg
      · rw [if_neg hnil] at hg
        cases hb : (FileProtector.decrypt A kdf password f.2).bind C.dec with
        | none => rw [hb] at hg; exact Option.noConfusion hg
        | some t =>
          rw [hb] at hg
          simp only at hg
          by_cases ht : pyStrip t = ""
          · rw [if_pos ht] at hg
            exact Option.noConfusion hg
          · rw [if_neg ht] at hg
            exact hg
    · by_cases hnil : f.2 = []
      · rw [if_pos hnil] at hg
        exact Option.noConfusion hg
      · rw [if_neg hnil] at hg
        cases hb : (FileProtector.decrypt A kdf password f.2).bind C.dec with
        | none => rw [hb] at hg; exact Option.noConfusion hg
        | some t =>
          rw [hb] at hg
          simp only at hg
          by_cases ht : pyStrip t = ""
          · rw [if_pos ht] at hg
            exact Option.noConfusion hg
          · rw [if_neg ht] at hg
            cases hg
            exact ht
  refine ⟨by decide, hmem, ?_, ?_⟩
  · intro files hall
    rw [List.eq_nil_iff_forall_not_mem]
    intro s hs
    obtain ⟨f, hf, _, hsome, _⟩ := hmem files s hs
    rw [hall f hf] at hsome
    exact Option.noConfusion hsome
  · intro files
    have := sorted_sortByKey (fun f : String × Bytes =>
      getIndexKey filePfx.data ext.data f.1.data) files
    exact List.pairwise_map.mpr this

/-- C5 counterexample: the file `m_junk.enc` has an unparsable index, is
keyed `-1`, sorts *before* the matching file `m_000.enc`, and is
decrypted and returned first - it neither sorts last nor is skipped, as
the claim states. -/
theorem load_unparsable_sorts_first_counterexample :
    loadMemoryFragments idAEAD constKdf [1] charCodec "m" ".enc"
      [("m_000.enc", demoBlob "ZERO"), ("m_junk.enc", demoBlob "JUNK")]
      = ["JUNK", "ZERO"] := by
  decide

/-- Witness for C5 at a concrete input: a directory whose single file
cannot be decrypted loads as the empty fragment list. -/
theorem loadMemoryFragments_order_witness :
    loadMemoryFragments idAEAD constKdf [1] charCodec "m" ".enc"
      [("m_000.enc", [5])] = [] :=
  (loadMemoryFragments_order idAEAD constKdf [1] charCodec "m" ".enc").2.2.1
    [("m_000.enc", [5])] (by decide)

set_option maxRecDepth 4000

/-- C7: the specification's example input parses to variable name
`capabilities` with exactly the two expected calls in left-to-right
order, the second call's `request` argument being the ordered list
holding one mapping with keys `interface`, `action`, `params`, whose
`params` value is the mapping `distance` to the float literal `2.0`
(represented exactly as `20 * 10 ^ (-1)`). -/
theorem parse_function_example :
    parseFunctionPlan c7Input = Except.ok c7Expected ∧
    c7Expected.functions.length = 2 :=
  ⟨by rfl, rfl⟩

/-- Helper: the binding loop fails with the bind-error message of some
missing capability whenever any requested capability is missing. -/
theorem bindAux_missing (inst : CognitionInstance) (fs : List CallSpec)
    (f : CallSpec) (hf : f ∈ fs) (hmiss : inst.methods.contains f.name = false) :
    ∃ missing, inst.methods.contains missing = false ∧
      bindFunctionCallables inst fs
        = Except.error (bindErrorMessage missing inst.typeName) := by
  induction fs with
  | nil => cases hf
  | cons g gs ih =>
    rw [bindFunctionCallables]
    cases hg : inst.methods.contains g.name with
    | false =>
      refine ⟨g.name, hg, ?_⟩
      simp [hg]
    | true =>
      rcases List.mem_cons.mp hf with rfl | hf2
      · rw [hmiss] at hg
        exact Bool.noConfusion hg
      · obtain ⟨m, hm1, hm2⟩ := ih hf2
        refine ⟨m, hm1, ?_⟩
        simp [hg, hm2]

/-- C9: binding a parsed plan that requests a capability name absent
from the capability object fails with the `AttributeError`-style bind
error whose message names a missing capability and the capability
object's type (the first missing name encountered in plan order). -/
theorem binder_missing_capability (plan : ParsedPlan) (inst : CognitionInstance)
    (f : CallSpec) (hf : f ∈ plan.functions)
    (hmiss : inst.methods.contains f.name = false) :
    ∃ missing, inst.methods.contains missing = false ∧
      createFunctionCallables plan inst
        = Except.error (bindErrorMessage missing inst.typeName) :=
  bindAux_missing inst plan.functions f hf hmiss

/-- Witness for C9 at a concrete input: the plan `[fly()]` bound against
a Cognition object lacking `fly` fails with the message naming `fly` and
the type name. -/
theorem binder_missing_capability_witness :
    ∃ missing, cogDemo.methods.contains missing = false ∧
      createFunctionCallables planDemo cogDemo
        = Except.error (bindErrorMessage missing cogDemo.typeName) :=
  binder_missing_capability planDemo cogDemo { name := "fly", args := [] }
    (List.Mem.head _) (by decide)

/-- C8 (amended): an all-failed round does not abort `deliberate` with a
raised error.  When every Round-2 synthesis slot is an error string, the
deliberation *returns* the fallback decision string built from Round 1's
(possibly error-marked) responses rather than raising; and as long as
some Round-2 slot succeeds, deliberation returns a decision string even
when every Round-1 member failed (the Round-1 all-failed check only
logs; its raise is commented out in the source). -/
theorem deliberate_all_fail_returns (collectiveName : String) (members : List String)
    (outcomes1 outcomes2 : List (Except String String)) (hm : members ≠ []) :
    ((∀ r ∈ debateResponses members outcomes2, strStartsWith r "Error:" = true) →
      hiveDeliberate collectiveName members outcomes1 outcomes2
        = Except.ok (hiveSynthesisFallback collectiveName members outcomes1)) ∧
    ((∃ r ∈ debateResponses members outcomes2, strStartsWith r "Error:" = false) →
      (hiveDeliberate collectiveName members outcomes1 outcomes2).isOk = true) := by
  constructor
  · intro hall
    simp only [hiveDeliberate]
    rw [if_neg hm]
    have hcond : (debateResponses members outcomes2).all
        (fun r => strStartsWith r "Error:") = true :=
      List.all_eq_true.mpr (fun r hr => hall r hr)
    rw [if_pos (Or.inr hcond)]
  · intro hex
    obtain ⟨r0, hr0, hnr0⟩ := hex
    simp only [hiveDeliberate]
    rw [if_neg hm]
    have hne : (debateResponses members outcomes2).isEmpty = false := by
      cases h : debateResponses members outcomes2 with
      | nil => rw [h] at hr0; cases hr0
      | cons a as => rfl
    have hnall : (debateResponses members outcomes2).all
        (fun r => strStartsWith r "Error:") = false := by
      cases hall : (debateResponses members outcomes2).all
          (fun r => strStartsWith r "Error:") with
      | false => rfl
      | true =>
        have := List.all_eq_true.mp hall r0 hr0
        rw [hnr0] at this
        exact Bool.noConfusion this
    rw [if_neg (by
      intro hcontra
      rcases hcontra with h1 | h2
      · rw [hne] at h1
        exact Bool.noConfusion h1
      · rw [hnall] at h2
        exact Bool.noConfusion h2)]
    by_cases hfinal : strStartsWith
        ((debateResponses members outcomes2).headD
          "Error: Could not retrieve final decision.") "Error:" = true
    · rw [if_pos hfinal]
      cases hfind : (debateResponses members outcomes2).find?
          (fun r => ! strStartsWith r "Error:") with
      | some r => rfl
      | none =>
        have hnone := List.find?_eq_none.mp hfind r0 hr0
        rw [hnr0] at hnone
        simp at hnone
    · rw [if_neg hfinal]
      rfl

/-- C8 counterexample: with two members and every slot of both rounds
failing, `deliberate` returns (`Except.ok`) the fallback decision string
- it does not abort with a `RuntimeError`-class failure as the claim
states. -/
theorem deliberate_all_fail_counterexample :
    hiveDeliberate "Collective Mind" ["M1", "M2"]
      [Except.error "boom1", Except.error "boom2"]
      [Except.error "x1", Except.error "x2"]
      = Except.ok (hiveSynthesisFallback "Collective Mind" ["M1", "M2"]
          [Except.error "boom1", Except.error "boom2"]) := by
  rfl

/-- Witness for the amended C8 at a concrete input: Round 2 failing for
both members makes `deliberate` return the fallback string built from
Round 1. -/
theorem deliberate_all_fail_returns_witness :
    hiveDeliberate "CM" ["M1", "M2"]
      [Except.ok "thought1", Except.error "b2"]
      [Except.error "x1", Except.error "x2"]
      = Except.ok (hiveSynthesisFallback "CM" ["M1", "M2"]
          [Except.ok "thought1", Except.error "b2"]) :=
  (deliberate_all_fail_returns "CM" ["M1", "M2"]
    [Except.ok "thought1", Except.error "b2"]
    [Except.error "x1", Except.error "x2"] (by decide)).1 (by decide)
